import Mathlib

/-!
Verification of the response-splitting and form-handling logic of the
AI Prompt Enhancer app (`src/App.py`).

Strings are modelled as `List Char`.  The Python string primitives the
code relies on (`in`, `split`, `replace`, `strip`) are embedded below as
executable Lean functions with the same semantics; the splitter
(`App.py` lines 94-130) and the submit handler (lines 160-206) are
translated on top of them.
-/

/-- `occursAt sep s i` : the pattern `sep` occurs in `s` at index `i`. -/
def occursAt (sep s : List Char) (i : Nat) : Prop :=
  (s.drop i).take sep.length = sep

instance (sep s : List Char) (i : Nat) : Decidable (occursAt sep s i) := by
  unfold occursAt; infer_instance

/-- Index of the first occurrence of `sep` in `s` (Python `str.find`,
restricted to the uses the app makes of it). -/
def findSubstr (sep : List Char) : List Char → Option Nat
  | [] => if sep = [] then some 0 else none
  | c :: rest =>
      if (c :: rest).take sep.length = sep then some 0
      else (findSubstr sep rest).map (· + 1)

/-- Python's `sep in s` substring test. -/
def pyIn (sep s : List Char) : Bool :=
  (findSubstr sep s).isSome

/-- Fuel-driven worker for Python `str.split(sep)` (leftmost,
non-overlapping occurrences).  `s.length` units of fuel always suffice
because each step consumes at least one character of a non-empty `sep`. -/
def pySplitGo (sep : List Char) : Nat → List Char → List (List Char)
  | 0, s => [s]
  | Nat.succ fuel, s =>
      match findSubstr sep s with
      | none => [s]
      | some i => s.take i :: pySplitGo sep fuel (s.drop (i + sep.length))

/-- Python `s.split(sep)` for non-empty `sep`. -/
def pySplit (sep s : List Char) : List (List Char) :=
  pySplitGo sep s.length s

/-- Fuel-driven worker for Python `str.replace(old, new)` (leftmost,
non-overlapping occurrences of `old`). -/
def pyReplaceGo (old new : List Char) : Nat → List Char → List Char
  | 0, s => s
  | Nat.succ fuel, s =>
      match findSubstr old s with
      | none => s
      | some i => s.take i ++ new ++ pyReplaceGo old new fuel (s.drop (i + old.length))

/-- Python `s.replace(old, new)` for non-empty `old`. -/
def pyReplace (old new s : List Char) : List Char :=
  pyReplaceGo old new s.length s

/-- Python `str.isspace` on a single character: the code points stripped
by `str.strip()` with no argument. -/
def pyIsSpace (c : Char) : Bool :=
  [9, 10, 11, 12, 13, 28, 29, 30, 31, 32, 133, 160, 0x1680,
   0x2000, 0x2001, 0x2002, 0x2003, 0x2004, 0x2005, 0x2006, 0x2007,
   0x2008, 0x2009, 0x200a, 0x2028, 0x2029, 0x202f, 0x205f, 0x3000].contains c.toNat

/-- Strip trailing Python whitespace. -/
def pyStripRight (s : List Char) : List Char :=
  (s.reverse.dropWhile pyIsSpace).reverse

/-- Python `s.strip()`: remove leading and trailing whitespace. -/
def pyStrip (s : List Char) : List Char :=
  (pyStripRight s).dropWhile pyIsSpace

/-! ### The literal markers of `App.py` -/

def analysisMarker : List Char := "## Analysis".data

def enhancedHeaderMarker : List Char := "## Enhanced Prompt".data

def enhancedColonMarker : List Char := "ENHANCED PROMPT:".data

def roleMarker : List Char := "ROLE:".data

def taskMarker : List Char := "TASK:".data

/-- The fixed fallback string of `App.py` lines 124 and 128. -/
def fallbackPrompt : List Char :=
  "Could not identify a clear prompt section. Please see the analysis tab.".data

/-! ### The regex of rule 3

`App.py` line 113-114 runs
`re.search(r"(ROLE:.*?TASK:.*?)(?=\n\n|$)", s, re.DOTALL)`.
Its semantics on an arbitrary input: the match starts at the first
`"ROLE:"` occurrence `i` from which the rest of the pattern can match;
the lazy `.*?` pieces make `j` the first `"TASK:"` occurrence at or
after `i + 5`, and make the match end at the smallest position
`p ≥ j + 5` where the lookahead holds.  With `re.DOTALL` and without
`re.MULTILINE`, the lookahead `(?=\n\n|$)` holds at `p` iff two newlines
start at `p`, or `p` is the end of the string, or `p` is just before a
newline that ends the string.  Since `$` always holds at the end of the
string, a match from position `i` exists as soon as some `"TASK:"`
occurs at or after `i + 5`; hence a match exists iff one exists from
the first `"ROLE:"` occurrence. -/

/-- One step of scanning for the first position at or after `p` where
the lookahead `(?=\n\n|$)` (no `re.MULTILINE`) holds. -/
def regexEndGo (s : List Char) : Nat → Nat → Nat
  | 0, p => p
  | Nat.succ fuel, p =>
      if s.length ≤ p then p
      else if (s.drop p).take 2 = ['\n', '\n'] ∨
              (s.length = p + 1 ∧ s.getD p ' ' = '\n') then p
      else regexEndGo s fuel (p + 1)

/-- First position at or after `p` where the lookahead `(?=\n\n|$)`
holds (the end position of the lazily matched span). -/
def regexSpanEnd (s : List Char) (p : Nat) : Nat :=
  regexEndGo s (s.length + 1) p

/-! ### The splitter (`App.py` lines 94-130) -/

/-- The response-splitting logic of `enhance_prompt`
(`App.py` lines 94-130): from the raw model output, produce
`(analysis, final_prompt)`. -/
def splitSections (s : List Char) : List Char × List Char :=
  -- First, try to split by markdown headers
  if pyIn analysisMarker s && pyIn enhancedHeaderMarker s then
    let parts := pySplit enhancedHeaderMarker s
    (pyStrip (pyReplace analysisMarker [] (parts.getD 0 [])),
     pyStrip (parts.getD 1 []))
  -- If that fails, try other common patterns
  else if pyIn enhancedColonMarker s then
    let parts := pySplit enhancedColonMarker s
    (pyStrip (parts.getD 0 []),
     enhancedColonMarker ++ pyStrip (parts.getD 1 []))
  -- If all else fails, try to find a section that looks like a prompt
  else if pyIn roleMarker s && pyIn taskMarker s then
    match findSubstr roleMarker s with
    | none => (s, fallbackPrompt)            -- unreachable under the guard
    | some i =>
        match findSubstr taskMarker (s.drop (i + roleMarker.length)) with
        | none =>
            -- the regex cannot match: everything is analysis
            (s, fallbackPrompt)
        | some k =>
            let e := regexSpanEnd s (i + roleMarker.length + k + taskMarker.length)
            (pyStrip (s.take i), pyStrip ((s.take e).drop i))
  else
    (s, fallbackPrompt)

/-- The same splitter with Python's fallible list indexing made
explicit: `parts[0]` and `parts[1]` return `none` when out of range
instead of raising `IndexError`. -/
def splitSectionsChecked (s : List Char) : Option (List Char × List Char) :=
  if pyIn analysisMarker s && pyIn enhancedHeaderMarker s then
    match (pySplit enhancedHeaderMarker s).get? 0,
          (pySplit enhancedHeaderMarker s).get? 1 with
    | some p0, some p1 =>
        some (pyStrip (pyReplace analysisMarker [] p0), pyStrip p1)
    | _, _ => none
  else if pyIn enhancedColonMarker s then
    match (pySplit enhancedColonMarker s).get? 0,
          (pySplit enhancedColonMarker s).get? 1 with
    | some p0, some p1 =>
        some (pyStrip p0, enhancedColonMarker ++ pyStrip p1)
    | _, _ => none
  else if pyIn roleMarker s && pyIn taskMarker s then
    match findSubstr roleMarker s with
    | none => some (s, fallbackPrompt)
    | some i =>
        match findSubstr taskMarker (s.drop (i + roleMarker.length)) with
        | none => some (s, fallbackPrompt)
        | some k =>
            let e := regexSpanEnd s (i + roleMarker.length + k + taskMarker.length)
            some (pyStrip (s.take i), pyStrip ((s.take e).drop i))
  else
    some (s, fallbackPrompt)

example :
    splitSections "## Analysis\nSome notes\n## Enhanced Prompt\nDo the thing".data
      = ("Some notes".data, "Do the thing".data) := by rfl

example :
    splitSections "Some thoughts\nENHANCED PROMPT: Do the thing well".data
      = ("Some thoughts".data, "ENHANCED PROMPT:Do the thing well".data) := by rfl

example :
    splitSections "Intro words\n\nROLE: X\nTASK: Y\n\nOutro".data
      = ("Intro words".data, "ROLE: X\nTASK: Y".data) := by rfl

example : splitSections "nothing here".data = ("nothing here".data, fallbackPrompt) := by rfl

/-! ### Properties of `findSubstr` -/

theorem occursAt_bound {sep s : List Char} {i : Nat} (hsep : sep ≠ [])
    (h : occursAt sep s i) : i + sep.length ≤ s.length := by
  unfold occursAt at h
  have hpos : 0 < sep.length := List.length_pos.mpr hsep
  have hlen := congrArg List.length h
  simp only [List.length_take, List.length_drop] at hlen
  omega

theorem findSubstr_some_occursAt {sep s : List Char} {i : Nat}
    (h : findSubstr sep s = some i) : occursAt sep s i := by
  induction s generalizing i with
  | nil =>
      unfold findSubstr at h
      split at h
      · cases h
        unfold occursAt
        simp [*]
      · cases h
  | cons c rest ih =>
      unfold findSubstr at h
      split at h
      · cases h
        exact ‹(c :: rest).take sep.length = sep›
      · obtain ⟨j, hj, rfl⟩ := Option.map_eq_some'.mp h
        have := ih hj
        unfold occursAt at this ⊢
        simpa using this

theorem findSubstr_min {sep s : List Char} {i : Nat}
    (h : findSubstr sep s = some i) : ∀ k, k < i → ¬ occursAt sep s k := by
  induction s generalizing i with
  | nil =>
      unfold findSubstr at h
      split at h
      · cases h
        omega
      · cases h
  | cons c rest ih =>
      unfold findSubstr at h
      split at h
      · cases h
        omega
      · obtain ⟨j, hj, rfl⟩ := Option.map_eq_some'.mp h
        intro k hk
        match k with
        | 0 =>
            intro hocc
            unfold occursAt at hocc
            simp at hocc
            exact ‹¬ (c :: rest).take sep.length = sep› hocc
        | Nat.succ k' =>
            intro hocc
            unfold occursAt at hocc
            simp only [List.drop_succ_cons] at hocc
            exact ih hj k' (by omega) hocc

theorem findSubstr_none {sep s : List Char}
    (h : findSubstr sep s = none) : ∀ k, ¬ occursAt sep s k := by
  induction s with
  | nil =>
      unfold findSubstr at h
      split at h
      · cases h
      · intro k hocc
        unfold occursAt at hocc
        simp at hocc
        exact ‹¬ sep = []› hocc
  | cons c rest ih =>
      unfold findSubstr at h
      split at h
      · cases h
      · intro k hocc
        have hrest : findSubstr sep rest = none := by
          cases hfr : findSubstr sep rest with
          | none => rfl
          | some j => rw [hfr] at h; cases h
        match k with
        | 0 =>
            unfold occursAt at hocc
            simp at hocc
            exact ‹¬ (c :: rest).take sep.length = sep› hocc
        | Nat.succ k' =>
            unfold occursAt at hocc
            simp only [List.drop_succ_cons] at hocc
            exact ih hrest k' hocc

theorem pyIn_eq_true_iff {sep s : List Char} :
    pyIn sep s = true ↔ ∃ k, occursAt sep s k := by
  unfold pyIn
  constructor
  · intro h
    obtain ⟨i, hi⟩ := Option.isSome_iff_exists.mp h
    exact ⟨i, findSubstr_some_occursAt hi⟩
  · rintro ⟨k, hk⟩
    cases hfind : findSubstr sep s with
    | none => exact absurd hk (findSubstr_none hfind k)
    | some i => simp

theorem pyIn_eq_false_iff {sep s : List Char} :
    pyIn sep s = false ↔ ∀ k, ¬ occursAt sep s k := by
  rw [← Bool.not_eq_true, pyIn_eq_true_iff]
  push_neg
  rfl

/-! ### Properties of `pySplit` -/

theorem findSubstr_nil_of_ne {sep : List Char} (hsep : sep ≠ []) :
    findSubstr sep [] = none := by
  unfold findSubstr
  simp [hsep]

theorem pySplitGo_fuel {sep : List Char} (hsep : sep ≠ []) :
    ∀ fuel₁ fuel₂ s, s.length ≤ fuel₁ → s.length ≤ fuel₂ →
      pySplitGo sep fuel₁ s = pySplitGo sep fuel₂ s := by
  have hpos : 0 < sep.length := List.length_pos.mpr hsep
  intro fuel₁
  induction fuel₁ with
  | zero =>
      intro fuel₂ s h₁ h₂
      have hs : s = [] := List.length_eq_zero.mp (Nat.le_zero.mp h₁)
      subst hs
      cases fuel₂ with
      | zero => rfl
      | succ g =>
          unfold pySplitGo
          rw [findSubstr_nil_of_ne hsep]
  | succ f ih =>
      intro fuel₂ s h₁ h₂
      cases fuel₂ with
      | zero =>
          have hs : s = [] := List.length_eq_zero.mp (Nat.le_zero.mp h₂)
          subst hs
          unfold pySplitGo
          rw [findSubstr_nil_of_ne hsep]
      | succ g =>
          cases hfind : findSubstr sep s with
          | none => simp only [pySplitGo, hfind]
          | some i =>
              have hbound : i + sep.length ≤ s.length :=
                occursAt_bound hsep (findSubstr_some_occursAt hfind)
              have hlen : (s.drop (i + sep.length)).length ≤ f ∧
                  (s.drop (i + sep.length)).length ≤ g := by
                simp only [List.length_drop]
                omega
              simp only [pySplitGo, hfind]
              rw [ih g (s.drop (i + sep.length)) hlen.1 hlen.2]

theorem pySplitGo_eq_pySplit {sep : List Char} (hsep : sep ≠ []) (fuel : Nat)
    (s : List Char) (h : s.length ≤ fuel) : pySplitGo sep fuel s = pySplit sep s :=
  pySplitGo_fuel hsep fuel s.length s h (Nat.le_refl _)

theorem pySplit_eq_of_none {sep s : List Char} (h : findSubstr sep s = none) :
    pySplit sep s = [s] := by
  unfold pySplit
  cases s.length with
  | zero => rfl
  | succ n => simp only [pySplitGo, h]

theorem pySplit_eq_of_some {sep s : List Char} {i : Nat} (hsep : sep ≠ [])
    (h : findSubstr sep s = some i) :
    pySplit sep s = s.take i :: pySplit sep (s.drop (i + sep.length)) := by
  have hpos : 0 < sep.length := List.length_pos.mpr hsep
  have hbound : i + sep.length ≤ s.length :=
    occursAt_bound hsep (findSubstr_some_occursAt h)
  obtain ⟨n, hn⟩ : ∃ n, s.length = n + 1 := ⟨s.length - 1, by omega⟩
  have hdrop : (s.drop (i + sep.length)).length ≤ n := by
    simp only [List.length_drop]
    omega
  calc pySplit sep s = pySplitGo sep (n + 1) s := by unfold pySplit; rw [hn]
    _ = s.take i :: pySplitGo sep n (s.drop (i + sep.length)) := by
        simp only [pySplitGo, h]
    _ = s.take i :: pySplit sep (s.drop (i + sep.length)) := by
        rw [pySplitGo_eq_pySplit hsep n _ hdrop]

/-- Text of `s` strictly before the first occurrence of `sep`
(all of `s` when `sep` does not occur). -/
def textBeforeFirst (sep s : List Char) : List Char :=
  match findSubstr sep s with
  | none => s
  | some i => s.take i

/-- Text of `s` strictly after the first occurrence of `sep`. -/
def textAfterFirst (sep s : List Char) : List Char :=
  match findSubstr sep s with
  | none => []
  | some i => s.drop (i + sep.length)

/-- Text of `s` strictly between the first and second occurrences of
`sep` (up to the end of `s` when `sep` occurs only once). -/
def textBetweenFirstTwo (sep s : List Char) : List Char :=
  textBeforeFirst sep (textAfterFirst sep s)

theorem pySplit_get_zero {sep s : List Char} (hsep : sep ≠ []) :
    (pySplit sep s).get? 0 = some (textBeforeFirst sep s) := by
  unfold textBeforeFirst
  cases hfind : findSubstr sep s with
  | none => rw [pySplit_eq_of_none hfind]; rfl
  | some i => rw [pySplit_eq_of_some hsep hfind]; rfl

theorem pySplit_get_one {sep s : List Char} (hsep : sep ≠ [])
    (h : pyIn sep s = true) :
    (pySplit sep s).get? 1 = some (textBetweenFirstTwo sep s) := by
  unfold pyIn at h
  obtain ⟨i, hi⟩ := Option.isSome_iff_exists.mp h
  rw [pySplit_eq_of_some hsep hi]
  show (pySplit sep (s.drop (i + sep.length))).get? 0 = _
  rw [pySplit_get_zero hsep]
  unfold textBetweenFirstTwo textAfterFirst
  rw [hi]

theorem pySplit_getD_zero {sep s : List Char} (hsep : sep ≠ []) :
    (pySplit sep s).getD 0 [] = textBeforeFirst sep s := by
  have := pySplit_get_zero (s := s) hsep
  rw [List.get?_eq_getElem?] at this
  simp [List.getD, this]

theorem pySplit_getD_one {sep s : List Char} (hsep : sep ≠ [])
    (h : pyIn sep s = true) :
    (pySplit sep s).getD 1 [] = textBetweenFirstTwo sep s := by
  have := pySplit_get_one (s := s) hsep h
  rw [List.get?_eq_getElem?] at this
  simp [List.getD, this]

/-! ### Properties of `pyStrip` -/

theorem pyStripRight_append_ws {c : Char} (hc : pyIsSpace c = true) (l : List Char) :
    pyStripRight (l ++ [c]) = pyStripRight l := by
  unfold pyStripRight
  rw [List.reverse_append]
  simp [List.dropWhile_cons, hc]

theorem pyStrip_append_ws {c : Char} (hc : pyIsSpace c = true) (l : List Char) :
    pyStrip (l ++ [c]) = pyStrip l := by
  unfold pyStrip
  rw [pyStripRight_append_ws hc]

theorem pyStripRight_decomp (s : List Char) :
    s = pyStripRight s ++ (s.reverse.takeWhile pyIsSpace).reverse := by
  unfold pyStripRight
  rw [← List.reverse_append, List.takeWhile_append_dropWhile, List.reverse_reverse]

theorem pyStrip_decomp (s : List Char) :
    ∃ u v, s = u ++ (pyStrip s ++ v) := by
  refine ⟨(pyStripRight s).takeWhile pyIsSpace,
    (s.reverse.takeWhile pyIsSpace).reverse, ?_⟩
  conv_lhs => rw [pyStripRight_decomp s]
  rw [← List.append_assoc]
  congr 1
  exact (List.takeWhile_append_dropWhile (p := pyIsSpace) (l := pyStripRight s)).symm

/-! ### Occurrences survive embedding in a larger string -/

theorem occursAt_append_middle {sep m : List Char} {k : Nat} (hsep : sep ≠ [])
    (u v : List Char) (h : occursAt sep m k) :
    occursAt sep (u ++ (m ++ v)) (u.length + k) := by
  have hbound := occursAt_bound hsep h
  have hpos : 0 < sep.length := List.length_pos.mpr hsep
  have hlen : sep.length ≤ (m.drop k).length := by
    simp only [List.length_drop]
    omega
  unfold occursAt at h ⊢
  rw [List.drop_append, List.drop_append_of_le_length (by omega),
      List.take_append_of_le_length hlen, h]

theorem pyStrip_no_occur {sep s : List Char} (hsep : sep ≠ [])
    (h : ∀ k, ¬ occursAt sep s k) : ∀ k, ¬ occursAt sep (pyStrip s) k := by
  intro k hk
  obtain ⟨u, v, huv⟩ := pyStrip_decomp s
  have hocc := occursAt_append_middle hsep u v hk
  rw [← huv] at hocc
  exact h _ hocc

theorem occursAt_of_occursAt_take {sep s : List Char} {i k : Nat} (hsep : sep ≠ [])
    (h : occursAt sep (s.take i) k) : occursAt sep s k ∧ k + sep.length ≤ i := by
  have hpos : 0 < sep.length := List.length_pos.mpr hsep
  have hbound := occursAt_bound hsep h
  unfold occursAt at h ⊢
  rw [List.drop_take, List.take_take] at h
  simp only [List.length_take, List.length_drop] at hbound
  have hle : sep.length ≤ i - k := by omega
  constructor
  · rw [show min sep.length (i - k) = sep.length from by omega] at h
    exact h
  · omega

theorem no_occur_before_first {sep s : List Char} {i : Nat} (hsep : sep ≠ [])
    (hfind : findSubstr sep s = some i) :
    ∀ k, ¬ occursAt sep (s.take i) k := by
  intro k hk
  obtain ⟨hocc, hle⟩ := occursAt_of_occursAt_take hsep hk
  have hpos : 0 < sep.length := List.length_pos.mpr hsep
  exact findSubstr_min hfind k (by omega) hocc

/-! ### The span end position: code (`(?=\n\n|$)`) versus the spec's words

The spec describes the end of the rule-3 span as "the first blank-line
(two consecutive newlines) or end-of-string"; the code's `$` (without
`re.MULTILINE`) additionally matches just before a newline that ends the
string.  The difference is a single trailing newline, which the final
`.strip()` removes, so the two descriptions give the same output. -/

/-- Scanner following the spec's words: first position at or after `p`
where two consecutive newlines start, or the end of the string. -/
def specEndGo (s : List Char) : Nat → Nat → Nat
  | 0, p => p
  | Nat.succ fuel, p =>
      if s.length ≤ p then p
      else if (s.drop p).take 2 = ['\n', '\n'] then p
      else specEndGo s fuel (p + 1)

/-- First position at or after `p` that is a blank line or the end of
the string, per the spec's words for rule 3. -/
def specSpanEnd (s : List Char) (p : Nat) : Nat :=
  specEndGo s (s.length + 1) p

theorem le_regexEndGo (s : List Char) :
    ∀ fuel p, p ≤ regexEndGo s fuel p := by
  intro fuel
  induction fuel with
  | zero => intro p; exact Nat.le_refl _
  | succ f ih =>
      intro p
      unfold regexEndGo
      split
      · exact Nat.le_refl _
      · split
        · exact Nat.le_refl _
        · exact Nat.le_trans (Nat.le_succ p) (ih (p + 1))

theorem specEndGo_of_ge (s : List Char) :
    ∀ fuel p, s.length ≤ p → specEndGo s fuel p = p := by
  intro fuel p h
  cases fuel with
  | zero => rfl
  | succ f =>
      unfold specEndGo
      rw [if_pos h]

theorem endGo_cases (s : List Char) :
    ∀ fuel p, s.length + 1 ≤ fuel + p →
      regexEndGo s fuel p = specEndGo s fuel p ∨
      (regexEndGo s fuel p + 1 = s.length ∧
       s.getD (regexEndGo s fuel p) ' ' = '\n' ∧
       specEndGo s fuel p = s.length) := by
  intro fuel
  induction fuel with
  | zero =>
      intro p h
      exact Or.inl rfl
  | succ f ih =>
      intro p h
      by_cases hp : s.length ≤ p
      · left
        unfold regexEndGo specEndGo
        rw [if_pos hp, if_pos hp]
      · by_cases hnn : (s.drop p).take 2 = ['\n', '\n']
        · left
          unfold regexEndGo specEndGo
          rw [if_neg hp, if_neg hp, if_pos (Or.inl hnn), if_pos hnn]
        · by_cases hd : s.length = p + 1 ∧ s.getD p ' ' = '\n'
          · right
            unfold regexEndGo specEndGo
            rw [if_neg hp, if_neg hp, if_pos (Or.inr hd), if_neg hnn]
            refine ⟨hd.1.symm, hd.2, ?_⟩
            rw [specEndGo_of_ge s f (p + 1) (Nat.le_of_eq hd.1)]
            exact hd.1.symm
          · have hcond : ¬((s.drop p).take 2 = ['\n', '\n'] ∨
                (s.length = p + 1 ∧ s.getD p ' ' = '\n')) := by
              intro hor
              cases hor with
              | inl h1 => exact hnn h1
              | inr h2 => exact hd h2
            have hgoal := ih (p + 1) (by omega)
            unfold regexEndGo specEndGo
            rw [if_neg hp, if_neg hp, if_neg hcond, if_neg hnn]
            exact hgoal

theorem spanEnd_cases (s : List Char) (p : Nat) :
    regexSpanEnd s p = specSpanEnd s p ∨
    (regexSpanEnd s p + 1 = s.length ∧
     s.getD (regexSpanEnd s p) ' ' = '\n' ∧
     specSpanEnd s p = s.length) :=
  endGo_cases s (s.length + 1) p (by omega)

theorem le_regexSpanEnd (s : List Char) (p : Nat) : p ≤ regexSpanEnd s p :=
  le_regexEndGo s (s.length + 1) p

/-- The observable output of the span is the same whether the span ends
at the code's `$` position (possibly just before a final newline) or at
the spec's end-of-string, because `strip` removes the difference. -/
theorem strip_span_eq (s : List Char) (i p : Nat) (hip : i ≤ p) :
    pyStrip ((s.take (regexSpanEnd s p)).drop i)
      = pyStrip ((s.take (specSpanEnd s p)).drop i) := by
  cases spanEnd_cases s p with
  | inl heq => rw [heq]
  | inr hcase =>
      obtain ⟨hlen, hnl, hspec⟩ := hcase
      rw [hspec]
      set e := regexSpanEnd s p with he
      have hie : i ≤ e := Nat.le_trans hip (le_regexSpanEnd s p)
      have helt : e < s.length := by omega
      have hgetElem : s[e]? = some '\n' := by
        rw [List.getElem?_eq_getElem helt]
        have : s.getD e ' ' = s[e] := by
          unfold List.getD
          rw [List.get?_eq_getElem?, List.getElem?_eq_getElem helt]
          rfl
        rw [this] at hnl
        rw [hnl]
      have hsucc : s.take (e + 1) = s.take e ++ ['\n'] := by
        rw [List.take_succ, hgetElem]
        rfl
      have hall : s.take s.length = s := List.take_length s
      have hs : s.take s.length = s.take e ++ ['\n'] := by
        rw [show s.length = e + 1 from hlen.symm] at hall ⊢
        exact hsucc
      rw [hs]
      have hdrop : (s.take e ++ ['\n']).drop i = (s.take e).drop i ++ ['\n'] := by
        apply List.drop_append_of_le_length
        simp only [List.length_take]
        omega
      rw [hdrop]
      exact (pyStrip_append_ws (c := '\n') (by decide) _).symm

/-- Rule 3 as the spec and claim C3 word it: the span starts at the
first `"ROLE:"`, extends through the next `"TASK:"` occurrence, and
ends at the first blank line (two consecutive newlines) or the end of
the string, taking the smallest such span; `analysis` is the text
before the span start, trimmed, and `enhancedPrompt` is the span,
trimmed.  If no such span exists, `analysis` is the entire text and
`enhancedPrompt` is the fixed fallback string. -/
def specRule3 (s : List Char) : List Char × List Char :=
  match findSubstr roleMarker s with
  | none => (s, fallbackPrompt)
  | some i =>
      match findSubstr taskMarker (s.drop (i + roleMarker.length)) with
      | none => (s, fallbackPrompt)
      | some k =>
          let e := specSpanEnd s (i + roleMarker.length + k + taskMarker.length)
          (pyStrip (s.take i), pyStrip ((s.take e).drop i))

/-! ### The form handler (`App.py` lines 38-46, 132-134, 160-206)

The Streamlit calls are modelled as a list of emitted UI events, and
the external OpenAI request as an `Except` parameter: `.ok raw` is a
completed request returning the text `raw`, `.error e` is a request
that raised an exception with message `e`.  The handler also returns
how many external requests were issued. -/

inductive UIEvent where
  | warningMsg (msg : List Char)
  | errorMsg (msg : List Char)
  | successMsg (msg : List Char)
  | headerMsg (t : List Char)
  | renderMarkdown (t : List Char)
  | downloadButton (label data fileName mime : List Char)
deriving DecidableEq

/-- Python truthiness of a string: non-empty. -/
def pyTruthy (s : List Char) : Bool := !s.isEmpty

/-- Python truthiness of an `Optional[str]`: not `None` and non-empty. -/
def pyTruthyOpt : Option (List Char) → Bool
  | none => false
  | some s => pyTruthy s

/-- `enhance_prompt` (`App.py` lines 39-134): check the API key, issue
the external request, split the response.  Returns the two optional
result strings, the events emitted, and the number of external requests
issued. -/
def enhance_prompt (apiKey : List Char)
    (callOutcome : Except (List Char) (List Char)) :
    (Option (List Char) × Option (List Char)) × List UIEvent × Nat :=
  if !pyTruthy apiKey then
    ((none, none),
     [UIEvent.errorMsg "Please enter your OpenAI API key in the sidebar".data], 0)
  else
    match callOutcome with
    | Except.error e =>
        ((none, none),
         [UIEvent.errorMsg ("Error calling OpenAI API: ".data ++ e)], 1)
    | Except.ok raw =>
        ((some (splitSections raw).1, some (splitSections raw).2), [], 1)

/-- The UI events emitted by the success branch of the handler
(`App.py` lines 170-206): success banner, the three tabs rendering the
enhanced prompt and the analysis, and the download button for
`enhanced_prompt.txt`. -/
def displayEvents (role context task a f : List Char) : List UIEvent :=
  [UIEvent.successMsg "Prompt enhanced successfully!".data,
   UIEvent.headerMsg "Enhanced Prompt".data,
   UIEvent.renderMarkdown f,
   UIEvent.downloadButton "Download Enhanced Prompt".data f
     "enhanced_prompt.txt".data "text/plain".data,
   UIEvent.headerMsg "Analysis & Feedback".data,
   UIEvent.renderMarkdown a,
   UIEvent.headerMsg "Original vs Enhanced".data,
   UIEvent.renderMarkdown "**ROLE:**".data,
   UIEvent.renderMarkdown role,
   UIEvent.renderMarkdown "**CONTEXT:**".data,
   UIEvent.renderMarkdown context,
   UIEvent.renderMarkdown "**TASK:**".data,
   UIEvent.renderMarkdown task,
   UIEvent.renderMarkdown f]

/-- The form-submission handler (`App.py` lines 160-206): validate the
three fields, run `enhance_prompt`, and on a truthy result render the
three tabs and the download button. -/
def handleSubmit (role context task apiKey : List Char)
    (callOutcome : Except (List Char) (List Char)) : List UIEvent × Nat :=
  if !(pyTruthy role && pyTruthy context && pyTruthy task) then
    ([UIEvent.warningMsg "Please fill in all three prompt components".data], 0)
  else
    match enhance_prompt apiKey callOutcome with
    | ((analysis, enhancedPrompt), events, calls) =>
        if pyTruthyOpt analysis && pyTruthyOpt enhancedPrompt then
          (events ++
            displayEvents role context task (analysis.getD []) (enhancedPrompt.getD []),
           calls)
        else (events, calls)

theorem pyTruthy_eq_true_iff {s : List Char} : pyTruthy s = true ↔ s ≠ [] := by
  unfold pyTruthy
  cases s <;> simp

/-! ## The claims -/

/-- Claim C1 (counterexample): on the spec's example input the split
does NOT return the expected `"ENHANCED PROMPT: Do the thing well"`:
the code strips the text after the marker and concatenates the marker
back without the space after the colon. -/
theorem C1_counterexample :
    splitSections "Some thoughts\nENHANCED PROMPT: Do the thing well".data
      ≠ ("Some thoughts".data, "ENHANCED PROMPT: Do the thing well".data) := by
  rw [show splitSections "Some thoughts\nENHANCED PROMPT: Do the thing well".data
      = ("Some thoughts".data, "ENHANCED PROMPT:Do the thing well".data) from rfl]
  decide

/-- Claim C1 (amended): for the spec's example input the split returns
analysis `"Some thoughts"` and enhanced prompt
`"ENHANCED PROMPT:Do the thing well"` — the marker re-prefixed directly
onto the trimmed text after the split, without a space after the colon. -/
theorem C1_amended :
    splitSections "Some thoughts\nENHANCED PROMPT: Do the thing well".data
      = ("Some thoughts".data, "ENHANCED PROMPT:Do the thing well".data) := rfl

/-- Claim C5: when the text contains none of the marker patterns
(rules 1-3 all fail to apply), the analysis is the entire text
unchanged and the enhanced prompt is the fixed fallback string. -/
theorem C5_no_markers (s : List Char)
    (h1 : (pyIn analysisMarker s && pyIn enhancedHeaderMarker s) = false)
    (h2 : pyIn enhancedColonMarker s = false)
    (h3 : (pyIn roleMarker s && pyIn taskMarker s) = false) :
    splitSections s = (s, fallbackPrompt) := by
  unfold splitSections
  rw [h1, h2, h3]
  simp

/-- Claim C5 witness: in particular the empty string falls to rule 4. -/
theorem C5_no_markers_witness :
    splitSections [] = ([], fallbackPrompt) :=
  C5_no_markers [] (by decide) (by decide) (by decide)

/-- Claim C6: the splitting routine is total: with Python's fallible
list indexing made explicit (`splitSectionsChecked`), it never fails
and always returns exactly the pair produced by `splitSections`. -/
theorem C6_split_total (s : List Char) :
    splitSectionsChecked s = some (splitSections s) := by
  unfold splitSections splitSectionsChecked
  by_cases h1 : (pyIn analysisMarker s && pyIn enhancedHeaderMarker s) = true
  · have hin : pyIn enhancedHeaderMarker s = true := by
      have h := h1
      simp only [Bool.and_eq_true] at h
      exact h.2
    have hsep : enhancedHeaderMarker ≠ [] := by decide
    rw [if_pos h1, if_pos h1, pySplit_get_zero hsep, pySplit_get_one hsep hin]
    dsimp only
    rw [pySplit_getD_zero hsep, pySplit_getD_one hsep hin]
  · rw [if_neg h1, if_neg h1]
    by_cases h2 : pyIn enhancedColonMarker s = true
    · have hsep : enhancedColonMarker ≠ [] := by decide
      rw [if_pos h2, if_pos h2, pySplit_get_zero hsep, pySplit_get_one hsep h2]
      dsimp only
      rw [pySplit_getD_zero hsep, pySplit_getD_one hsep h2]
    · rw [if_neg h2, if_neg h2]
      by_cases h3 : (pyIn roleMarker s && pyIn taskMarker s) = true
      · rw [if_pos h3, if_pos h3]
        cases findSubstr roleMarker s with
        | none => rfl
        | some i =>
            dsimp only
            cases findSubstr taskMarker (s.drop (i + roleMarker.length)) <;> rfl
      · rw [if_neg h3, if_neg h3]

/-- Claim C7: a submission with any of the three fields empty shows the
warning and never issues the external request (zero calls made). -/
theorem C7_blank_field (role context task apiKey : List Char)
    (callOutcome : Except (List Char) (List Char))
    (h : role = [] ∨ context = [] ∨ task = []) :
    handleSubmit role context task apiKey callOutcome
      = ([UIEvent.warningMsg "Please fill in all three prompt components".data], 0) := by
  have hv : (pyTruthy role && pyTruthy context && pyTruthy task) = false := by
    rcases h with h | h | h <;> subst h <;> simp [pyTruthy]
  unfold handleSubmit
  rw [hv]
  simp

/-- Claim C7 witness: a concrete submission with an empty Role field. -/
theorem C7_blank_field_witness :
    handleSubmit [] "c".data "t".data "k".data (Except.ok "x".data)
      = ([UIEvent.warningMsg "Please fill in all three prompt components".data], 0) :=
  C7_blank_field [] "c".data "t".data "k".data (Except.ok "x".data) (Or.inl rfl)


/-! ### Scenario lemmas for the handler -/

theorem handleSubmit_noKey {role context task apiKey : List Char}
    {callOutcome : Except (List Char) (List Char)}
    (hv : (pyTruthy role && pyTruthy context && pyTruthy task) = true)
    (hk : pyTruthy apiKey = false) :
    handleSubmit role context task apiKey callOutcome
      = ([UIEvent.errorMsg "Please enter your OpenAI API key in the sidebar".data],
         0) := by
  have he : enhance_prompt apiKey callOutcome
      = ((none, none),
         [UIEvent.errorMsg "Please enter your OpenAI API key in the sidebar".data],
         0) := by
    unfold enhance_prompt
    rw [hk]
    rfl
  unfold handleSubmit
  rw [hv, he]
  rfl

theorem handleSubmit_errorCall {role context task apiKey e : List Char}
    (hv : (pyTruthy role && pyTruthy context && pyTruthy task) = true)
    (hk : pyTruthy apiKey = true) :
    handleSubmit role context task apiKey (Except.error e)
      = ([UIEvent.errorMsg ("Error calling OpenAI API: ".data ++ e)], 1) := by
  have he : enhance_prompt apiKey (Except.error e)
      = ((none, none),
         [UIEvent.errorMsg ("Error calling OpenAI API: ".data ++ e)], 1) := by
    unfold enhance_prompt
    rw [hk]
    rfl
  unfold handleSubmit
  rw [hv, he]
  rfl

theorem handleSubmit_okDisplay {role context task apiKey raw : List Char}
    (hv : (pyTruthy role && pyTruthy context && pyTruthy task) = true)
    (hk : pyTruthy apiKey = true)
    (hd : (pyTruthy (splitSections raw).1 && pyTruthy (splitSections raw).2) = true) :
    handleSubmit role context task apiKey (Except.ok raw)
      = (displayEvents role context task (splitSections raw).1 (splitSections raw).2,
         1) := by
  have he : enhance_prompt apiKey (Except.ok raw)
      = ((some (splitSections raw).1, some (splitSections raw).2), [], 1) := by
    unfold enhance_prompt
    rw [hk]
    rfl
  unfold handleSubmit
  rw [hv, he]
  dsimp only [pyTruthyOpt]
  rw [hd]
  rfl

theorem handleSubmit_okNoDisplay {role context task apiKey raw : List Char}
    (hv : (pyTruthy role && pyTruthy context && pyTruthy task) = true)
    (hk : pyTruthy apiKey = true)
    (hd : (pyTruthy (splitSections raw).1 && pyTruthy (splitSections raw).2) = false) :
    handleSubmit role context task apiKey (Except.ok raw) = ([], 1) := by
  have he : enhance_prompt apiKey (Except.ok raw)
      = ((some (splitSections raw).1, some (splitSections raw).2), [], 1) := by
    unfold enhance_prompt
    rw [hk]
    rfl
  unfold handleSubmit
  rw [hv, he]
  dsimp only [pyTruthyOpt]
  rw [hd]
  rfl

theorem handleSubmit_invalid {role context task apiKey : List Char}
    {callOutcome : Except (List Char) (List Char)}
    (hb : (pyTruthy role && pyTruthy context && pyTruthy task) = false) :
    handleSubmit role context task apiKey callOutcome
      = ([UIEvent.warningMsg "Please fill in all three prompt components".data], 0) := by
  unfold handleSubmit
  rw [hb]
  rfl

theorem bool_eq_false {b : Bool} (h : ¬ b = true) : b = false := by
  cases b
  · rfl
  · exact absurd rfl h

/-- Claim C8: with all three fields filled, a missing API key or an
exception raised by the external call makes the handler emit exactly
one error message: no text blocks are rendered and no download button
is offered. -/
theorem C8_error_no_display (role context task apiKey : List Char)
    (callOutcome : Except (List Char) (List Char))
    (hr : role ≠ []) (hc : context ≠ []) (ht : task ≠ [])
    (herr : apiKey = [] ∨ ∃ e, callOutcome = Except.error e) :
    ∃ m, (handleSubmit role context task apiKey callOutcome).1
      = [UIEvent.errorMsg m] := by
  have hv : (pyTruthy role && pyTruthy context && pyTruthy task) = true := by
    simp [pyTruthy_eq_true_iff, hr, hc, ht]
  by_cases hk : pyTruthy apiKey = true
  · rcases herr with hkey | ⟨e, hcall⟩
    · exact absurd hkey (pyTruthy_eq_true_iff.mp hk)
    · subst hcall
      exact ⟨_, by rw [handleSubmit_errorCall hv hk]⟩
  · exact ⟨_, by rw [handleSubmit_noKey hv (bool_eq_false hk)]⟩

/-- Claim C8 witness: a concrete submission with all fields filled and
an empty API key emits a lone error message. -/
theorem C8_error_no_display_witness :
    ∃ m, (handleSubmit "r".data "c".data "t".data [] (Except.ok "x".data)).1
      = [UIEvent.errorMsg m] :=
  C8_error_no_display "r".data "c".data "t".data [] (Except.ok "x".data)
    (by decide) (by decide) (by decide) (Or.inl rfl)

/-- Claim C9 (counterexample): all three fields whitespace-only (hence
non-empty, passing validation) but the API key empty: the external call
is NOT made (zero requests issued), refuting the claim that a
submission whose fields are all whitespace-only proceeds to the
external call. -/
theorem C9_counterexample :
    (" ".data ≠ [] ∧ " ".data.all pyIsSpace = true) ∧
    (handleSubmit " ".data " ".data " ".data [] (Except.ok "x".data)).2 = 0 :=
  ⟨⟨by decide, by decide⟩, rfl⟩

/-- Claim C9 (amended): the blank-field warning fires exactly when at
least one of the three fields is the empty string — whitespace-only
fields count as filled and pass validation — and a submission with all
fields non-empty issues the external call exactly when the API key is
also non-empty. -/
theorem C9_amended (role context task apiKey : List Char)
    (callOutcome : Except (List Char) (List Char)) :
    (UIEvent.warningMsg "Please fill in all three prompt components".data
        ∈ (handleSubmit role context task apiKey callOutcome).1
      ↔ (role = [] ∨ context = [] ∨ task = [])) ∧
    (role ≠ [] → context ≠ [] → task ≠ [] → apiKey ≠ [] →
      (handleSubmit role context task apiKey callOutcome).2 = 1) := by
  by_cases hv : (pyTruthy role && pyTruthy context && pyTruthy task) = true
  · have hfields : role ≠ [] ∧ context ≠ [] ∧ task ≠ [] := by
      simp only [Bool.and_eq_true, pyTruthy_eq_true_iff] at hv
      exact ⟨hv.1.1, hv.1.2, hv.2⟩
    have hnot : ¬(role = [] ∨ context = [] ∨ task = []) := by
      push_neg
      exact hfields
    constructor
    · refine iff_of_false ?_ hnot
      by_cases hk : pyTruthy apiKey = true
      · cases callOutcome with
        | error e =>
            rw [handleSubmit_errorCall hv hk]
            simp
        | ok raw =>
            by_cases hd : (pyTruthy (splitSections raw).1 &&
                pyTruthy (splitSections raw).2) = true
            · rw [handleSubmit_okDisplay hv hk hd]
              simp [displayEvents]
            · rw [handleSubmit_okNoDisplay hv hk (bool_eq_false hd)]
              simp
      · rw [handleSubmit_noKey hv (bool_eq_false hk)]
        simp
    · intro _ _ _ hkey
      have hk : pyTruthy apiKey = true := pyTruthy_eq_true_iff.mpr hkey
      cases callOutcome with
      | error e => rw [handleSubmit_errorCall hv hk]
      | ok raw =>
          by_cases hd : (pyTruthy (splitSections raw).1 &&
              pyTruthy (splitSections raw).2) = true
          · rw [handleSubmit_okDisplay hv hk hd]
          · rw [handleSubmit_okNoDisplay hv hk (bool_eq_false hd)]
  · have hb : (pyTruthy role && pyTruthy context && pyTruthy task) = false :=
      bool_eq_false hv
    have hfields : role = [] ∨ context = [] ∨ task = [] := by
      by_contra hcon
      push_neg at hcon
      apply hv
      simp [Bool.and_eq_true, pyTruthy_eq_true_iff, hcon.1, hcon.2.1, hcon.2.2]
    constructor
    · rw [handleSubmit_invalid hb]
      exact iff_of_true (by simp) hfields
    · intro hr hc ht _
      rcases hfields with h | h | h
      · exact absurd h hr
      · exact absurd h hc
      · exact absurd h ht

/-- Claim C9 (amended) witness: whitespace-only fields with a non-empty
API key do reach the external call. -/
theorem C9_amended_witness :
    (handleSubmit " ".data " ".data " ".data "k".data (Except.ok "x".data)).2 = 1 :=
  (C9_amended " ".data " ".data " ".data "k".data (Except.ok "x".data)).2
    (by decide) (by decide) (by decide) (by decide)

/-- Claim C4 (counterexample): a successful external call whose
response makes the splitter return an EMPTY analysis string: the
handler renders nothing and offers no download, refuting the claim that
the blocks are rendered "including the case where the returned analysis
is the empty string". -/
theorem C4_counterexample :
    splitSections "## Analysis\n## Enhanced Prompt\nR".data = ([], "R".data) ∧
    (handleSubmit "r".data "c".data "t".data "k".data
        (Except.ok "## Analysis\n## Enhanced Prompt\nR".data)).1 = [] :=
  ⟨rfl, rfl⟩

/-- Claim C4 (amended): when the external call succeeds and BOTH
returned strings are non-empty, the handler renders the two text blocks
and offers the enhanced prompt as a plain-text download named
`enhanced_prompt.txt`; when either returned string is empty, nothing is
rendered and no download is offered. -/
theorem C4_success_display (role context task apiKey raw : List Char)
    (hr : role ≠ []) (hc : context ≠ []) (ht : task ≠ []) (hk : apiKey ≠ [])
    (ha : (splitSections raw).1 ≠ []) (hf : (splitSections raw).2 ≠ []) :
    handleSubmit role context task apiKey (Except.ok raw)
      = (displayEvents role context task
          (splitSections raw).1 (splitSections raw).2, 1) := by
  have hv : (pyTruthy role && pyTruthy context && pyTruthy task) = true := by
    simp [pyTruthy_eq_true_iff, hr, hc, ht]
  have hd : (pyTruthy (splitSections raw).1 && pyTruthy (splitSections raw).2) = true := by
    simp [pyTruthy_eq_true_iff, ha, hf]
  exact handleSubmit_okDisplay hv (pyTruthy_eq_true_iff.mpr hk) hd

/-- Claim C4 (amended) witness: a concrete successful submission whose
split produces two non-empty strings renders both blocks and offers the
download. -/
theorem C4_success_display_witness :
    handleSubmit "r".data "c".data "t".data "k".data
        (Except.ok "## Analysis\nA\n## Enhanced Prompt\nB".data)
      = (displayEvents "r".data "c".data "t".data
          (splitSections "## Analysis\nA\n## Enhanced Prompt\nB".data).1
          (splitSections "## Analysis\nA\n## Enhanced Prompt\nB".data).2, 1) :=
  C4_success_display "r".data "c".data "t".data "k".data
    "## Analysis\nA\n## Enhanced Prompt\nB".data
    (by decide) (by decide) (by decide) (by decide) (by decide) (by decide)

/-- Claim C2 (counterexample): when `"## Enhanced Prompt"` occurs
twice, the enhanced prompt is NOT the trimmed text after the first
occurrence: Python's `split` cuts it off at the second occurrence, so
everything from the second occurrence on is silently dropped. -/
theorem C2_counterexample :
    (splitSections
        "## Analysis\nA\n## Enhanced Prompt\nB\n## Enhanced Prompt\nC".data).2
      = "B".data ∧
    pyStrip (textAfterFirst enhancedHeaderMarker
        "## Analysis\nA\n## Enhanced Prompt\nB\n## Enhanced Prompt\nC".data)
      = "B\n## Enhanced Prompt\nC".data ∧
    "B".data ≠ "B\n## Enhanced Prompt\nC".data :=
  ⟨rfl, rfl, by decide⟩

/-- Claim C2 (amended): only the first occurrence of each marker is
used as the split point, but the text kept extends only to the NEXT
occurrence of the same marker (to the end when there is no second
occurrence): under rule 1 the enhanced prompt is the trimmed text
between the first and second occurrences of `"## Enhanced Prompt"` and
the analysis is the text before the first occurrence with all
occurrences of `"## Analysis"` removed, trimmed; under rule 2 the
enhanced prompt is the marker re-prefixed onto the trimmed text between
the first and second occurrences of `"ENHANCED PROMPT:"`. -/
theorem C2_first_occurrence (s : List Char) :
    ((pyIn analysisMarker s && pyIn enhancedHeaderMarker s) = true →
      splitSections s
        = (pyStrip (pyReplace analysisMarker []
             (textBeforeFirst enhancedHeaderMarker s)),
           pyStrip (textBetweenFirstTwo enhancedHeaderMarker s))) ∧
    ((pyIn analysisMarker s && pyIn enhancedHeaderMarker s) = false →
      pyIn enhancedColonMarker s = true →
      splitSections s
        = (pyStrip (textBeforeFirst enhancedColonMarker s),
           enhancedColonMarker ++
             pyStrip (textBetweenFirstTwo enhancedColonMarker s))) := by
  constructor
  · intro h1
    have hin : pyIn enhancedHeaderMarker s = true := by
      have h := h1
      simp only [Bool.and_eq_true] at h
      exact h.2
    have hsep : enhancedHeaderMarker ≠ [] := by decide
    unfold splitSections
    rw [if_pos h1]
    dsimp only
    rw [pySplit_getD_zero hsep, pySplit_getD_one hsep hin]
  · intro h1 h2
    have hsep : enhancedColonMarker ≠ [] := by decide
    unfold splitSections
    rw [if_neg (by simp [h1]), if_pos h2]
    dsimp only
    rw [pySplit_getD_zero hsep, pySplit_getD_one hsep h2]

/-- Claim C2 (amended) witness: a rule-1 input with a repeated
`"## Enhanced Prompt"` marker and a rule-2 input with a repeated
`"ENHANCED PROMPT:"` marker, both split at the first occurrence and cut
at the second. -/
theorem C2_first_occurrence_witness :
    splitSections
        "## Analysis\nA\n## Enhanced Prompt\nB\n## Enhanced Prompt\nC".data
      = (pyStrip (pyReplace analysisMarker []
           (textBeforeFirst enhancedHeaderMarker
             "## Analysis\nA\n## Enhanced Prompt\nB\n## Enhanced Prompt\nC".data)),
         pyStrip (textBetweenFirstTwo enhancedHeaderMarker
           "## Analysis\nA\n## Enhanced Prompt\nB\n## Enhanced Prompt\nC".data)) ∧
    splitSections "T\nENHANCED PROMPT: A ENHANCED PROMPT: B".data
      = (pyStrip (textBeforeFirst enhancedColonMarker
           "T\nENHANCED PROMPT: A ENHANCED PROMPT: B".data),
         enhancedColonMarker ++
           pyStrip (textBetweenFirstTwo enhancedColonMarker
             "T\nENHANCED PROMPT: A ENHANCED PROMPT: B".data)) :=
  ⟨(C2_first_occurrence _).1 (by decide),
   (C2_first_occurrence _).2 (by decide) (by decide)⟩

/-- Claim C10 (counterexample): under rule 1 the analysis CAN contain
`"## Enhanced Prompt"`: removing the `"## Analysis"` occurrences can
splice the surrounding text into a new occurrence of the marker. -/
theorem C10_counterexample :
    (pyIn analysisMarker
        "## Analysis## Enhanced## Analysis Prompt## Enhanced PromptX".data &&
     pyIn enhancedHeaderMarker
        "## Analysis## Enhanced## Analysis Prompt## Enhanced PromptX".data) = true ∧
    pyIn enhancedHeaderMarker
      (splitSections
        "## Analysis## Enhanced## Analysis Prompt## Enhanced PromptX".data).1
      = true :=
  ⟨rfl, rfl⟩

/-- Claim C10 (amended): the rule-2 half holds: under rule 2 the
returned analysis contains no occurrence of `"ENHANCED PROMPT:"` and
the returned enhanced prompt starts with `"ENHANCED PROMPT:"`.  (The
rule-1 half fails: removing `"## Analysis"` occurrences can create new
marker occurrences in the analysis.) -/
theorem C10_rule2_invariants (s : List Char)
    (h1 : (pyIn analysisMarker s && pyIn enhancedHeaderMarker s) = false)
    (h2 : pyIn enhancedColonMarker s = true) :
    pyIn enhancedColonMarker (splitSections s).1 = false ∧
    ∃ t, (splitSections s).2 = enhancedColonMarker ++ t := by
  have hsep : enhancedColonMarker ≠ [] := by decide
  have h2' : (findSubstr enhancedColonMarker s).isSome = true := h2
  obtain ⟨i, hi⟩ := Option.isSome_iff_exists.mp h2'
  have hsplit : splitSections s
      = (pyStrip (s.take i),
         enhancedColonMarker ++
           pyStrip (textBetweenFirstTwo enhancedColonMarker s)) := by
    unfold splitSections
    rw [if_neg (by simp [h1]), if_pos h2]
    dsimp only
    rw [pySplit_getD_zero hsep, pySplit_getD_one hsep h2]
    unfold textBeforeFirst
    rw [hi]
  rw [hsplit]
  constructor
  · exact pyIn_eq_false_iff.mpr (pyStrip_no_occur hsep (no_occur_before_first hsep hi))
  · exact ⟨_, rfl⟩

/-- Claim C10 (amended) witness: a concrete rule-2 input. -/
theorem C10_rule2_invariants_witness :
    pyIn enhancedColonMarker
      (splitSections "thoughts\nENHANCED PROMPT: y".data).1 = false ∧
    ∃ t, (splitSections "thoughts\nENHANCED PROMPT: y".data).2
      = enhancedColonMarker ++ t :=
  C10_rule2_invariants "thoughts\nENHANCED PROMPT: y".data (by decide) (by decide)

/-- Claim C3: when rules 1 and 2 do not apply and both `"ROLE:"` and
`"TASK:"` occur, the splitter behaves exactly as the spec words it
(`specRule3`): the span starts at the first `"ROLE:"`, runs through the
next `"TASK:"`, and ends at the first blank line or the end of the
string; the analysis is the text before the span, trimmed, and the
enhanced prompt is the span, trimmed; if no such span exists the whole
text is the analysis and the fixed fallback string is returned. -/
theorem C3_rule3 (s : List Char)
    (h1 : (pyIn analysisMarker s && pyIn enhancedHeaderMarker s) = false)
    (h2 : pyIn enhancedColonMarker s = false)
    (h3 : (pyIn roleMarker s && pyIn taskMarker s) = true) :
    splitSections s = specRule3 s := by
  unfold splitSections specRule3
  rw [if_neg (by simp [h1]), if_neg (by simp [h2]), if_pos h3]
  cases hrole : findSubstr roleMarker s with
  | none => rfl
  | some i =>
      dsimp only
      cases htask : findSubstr taskMarker (s.drop (i + roleMarker.length)) with
      | none => rfl
      | some k =>
          dsimp only
          rw [strip_span_eq s i
            (i + roleMarker.length + k + taskMarker.length) (by omega)]

/-- Claim C3 witness: a concrete rule-3 input with leading analysis
text and a blank-line-terminated span. -/
theorem C3_rule3_witness :
    splitSections "Intro\nROLE: X\nTASK: Y\n\nmore".data
      = specRule3 "Intro\nROLE: X\nTASK: Y\n\nmore".data :=
  C3_rule3 "Intro\nROLE: X\nTASK: Y\n\nmore".data (by decide) (by decide) (by decide)
